import Mathlib

/-!
Verification development for the HueBridge adapter of zigbee-herdsman
(message decoder, command queue, multi-phase ZCL exchange, ZDO command
construction).  Strings are modelled as lists of characters; JavaScript
numbers produced by parseInt are modelled as `Option Int` where `none`
plays the role of NaN; runtime exceptions (TypeError on property access
of undefined or null) are modelled by an `Option` result where `none`
means the function threw.
-/

namespace HB

/-- JavaScript number as produced by parseInt: `none` models NaN. -/
abbrev JSNum := Option Int

/-- Decimal digit predicate, matching the regex class backslash-d. -/
def isDigitC (c : Char) : Bool := 48 ≤ c.toNat && c.toNat ≤ 57

/-- Case-insensitive hex digit, matching the class 0-9A-F under the i flag. -/
def isHexC (c : Char) : Bool :=
  isDigitC c || (65 ≤ c.toNat && c.toNat ≤ 70) || (97 ≤ c.toNat && c.toNat ≤ 102)

/-- Hex digit or colon, matching the class 0-9A-F: used for addresses. -/
def isHexColonC (c : Char) : Bool := isHexC c || c == ':'

/-- ASCII lower-casing, as String.prototype.toLowerCase acts on these inputs. -/
def toLowerC (c : Char) : Char :=
  if 65 ≤ c.toNat && c.toNat ≤ 90 then Char.ofNat (c.toNat + 32) else c

/-- ASCII upper-casing, as String.prototype.toUpperCase acts on these inputs. -/
def toUpperC (c : Char) : Char :=
  if 97 ≤ c.toNat && c.toNat ≤ 122 then Char.ofNat (c.toNat - 32) else c

/-- Numeric value of a hex digit. -/
def hexVal (c : Char) : Nat :=
  if isDigitC c then c.toNat - 48
  else if 65 ≤ c.toNat && c.toNat ≤ 70 then c.toNat - 55
  else c.toNat - 87

/-- startsWith on character lists (String.prototype.startsWith). -/
def startsWithL : List Char → List Char → Bool
  | [], _ => true
  | _ :: _, [] => false
  | p :: ps, c :: cs => p == c && startsWithL ps cs

/-- containsSub pat s decides whether pat occurs as a contiguous substring
of s (String.prototype.includes). -/
def containsSub (pat : List Char) : List Char → Bool
  | [] => startsWithL pat []
  | c :: cs => startsWithL pat (c :: cs) || containsSub pat cs

/-- Remove the first occurrence of pat (String.prototype.replace with a
plain-string first argument replaces only the first occurrence). -/
def removeFirstSub (pat : List Char) : List Char → List Char
  | [] => []
  | c :: cs =>
    if startsWithL pat (c :: cs) then (c :: cs).drop pat.length
    else c :: removeFirstSub pat cs

/-- JavaScript Array.prototype.slice and String.prototype.slice with two
integer arguments, including the negative-index-from-the-end rule. -/
def jsSlice {α : Type} (l : List α) (s e : Int) : List α :=
  let len : Int := l.length
  let s' := if s < 0 then max (len + s) 0 else min s len
  let e' := if e < 0 then max (len + e) 0 else min e len
  (l.take e'.toNat).drop s'.toNat

/-- Split on commas; the empty list yields a single empty field, exactly
as String.prototype.split(",") does on the empty string. -/
def jsSplitComma : List Char → List (List Char)
  | [] => [[]]
  | c :: rest =>
    if c == ',' then [] :: jsSplitComma rest
    else
      match jsSplitComma rest with
      | [] => [[c]]
      | h :: t => (c :: h) :: t

/-- Indexing that returns undefined (none) when out of range or negative. -/
def jsIndexI {α : Type} (l : List α) (i : Int) : Option α :=
  if i < 0 then none else l.get? i.toNat

/-- Whitespace skipped by parseInt before reading the number. -/
def isJsWs (c : Char) : Bool := c == ' ' || c == '\t' || c == '\n' || c == '\r'

/-- Fold digits of a given base into a value. -/
def foldDigits (b : Nat) (v : Char → Nat) (ds : List Char) : Nat :=
  ds.foldl (fun a c => a * b + v c) 0

/-- Read a run of hex digits; none when the run is empty (NaN). -/
def hexRun (neg : Bool) (t : List Char) : JSNum :=
  match t.takeWhile isHexC with
  | [] => none
  | ds => some (if neg then -(foldDigits 16 hexVal ds : Nat) else (foldDigits 16 hexVal ds : Nat))

/-- Read a run of decimal digits; none when the run is empty (NaN). -/
def decRun (neg : Bool) (t : List Char) : JSNum :=
  match t.takeWhile isDigitC with
  | [] => none
  | ds => some (if neg then -(foldDigits 10 (fun c => c.toNat - 48) ds : Nat) else (foldDigits 10 (fun c => c.toNat - 48) ds : Nat))

/-- JavaScript parseInt.  With hexRadix true the radix argument 16 was
passed; with hexRadix false no radix was given, in which case a leading
0x or 0X switches to base 16 (this matters for fields such as a neighbor
network address written 0x1234).  Parsing stops at the first invalid
character; no valid digit yields NaN. -/
def parseIntCore (hexRadix : Bool) (s : List Char) : JSNum :=
  let s1 := s.dropWhile isJsWs
  let (neg, s2) :=
    match s1 with
    | '-' :: r => (true, r)
    | '+' :: r => (false, r)
    | r => (false, r)
  match s2 with
  | '0' :: x :: r =>
    if x == 'x' || x == 'X' then hexRun neg r
    else if hexRadix then hexRun neg s2
    else decRun neg s2
  | _ => if hexRadix then hexRun neg s2 else decRun neg s2

/-- parseInt with no radix argument. -/
def parseIntDec (s : List Char) : JSNum := parseIntCore false s

/-- parseInt with radix 16. -/
def parseIntHex (s : List Char) : JSNum := parseIntCore true s

/-- parseInt applied to a possibly-undefined field: parseInt(undefined)
is NaN. -/
def parseIntOpt (o : Option (List Char)) : JSNum :=
  match o with
  | none => none
  | some s => parseIntDec s

/-- parseInt with radix 16 on a possibly-undefined field. -/
def parseIntHexOpt (o : Option (List Char)) : JSNum :=
  match o with
  | none => none
  | some s => parseIntHex s

/-- ToInt32 coercion used by the bitwise-and operator. -/
def toInt32 (v : Int) : Int :=
  let r := v.emod 4294967296
  if r ≥ 2147483648 then r - 4294967296 else r

/-- JavaScript bitwise-and with a small mask: NaN coerces to 0, other
values go through ToInt32. -/
def jsAnd (x : JSNum) (m : Nat) : JSNum :=
  some (Int.land (toInt32 (x.getD 0)) m)

/-- Expect one exact character at the current position. -/
def expC (ch : Char) : List Char → Option (List Char)
  | c :: r => if c == ch then some r else none
  | [] => none

/-- Expect a letter at the current position, either case (the i flag). -/
def expCI (lo up : Char) : List Char → Option (List Char)
  | c :: r => if c == lo || c == up then some r else none
  | [] => none

/-- Greedy nonempty character-class run (a one-or-more quantifier whose
class excludes the following delimiter, so no backtracking arises). -/
def grab (p : Char → Bool) (s : List Char) : Option (List Char × List Char) :=
  match s.takeWhile p with
  | [] => none
  | g => some (g, s.dropWhile p)

/-- Regex scanning: try the anchored attempt at every position from the
left, returning the first success, as String.prototype.match does. -/
def scanOpt {α : Type} (att : List Char → Option α) : List Char → Option α
  | [] => att []
  | c :: cs =>
    match att (c :: cs) with
    | some r => some r
    | none => scanOpt att cs

/-- Anchored attempt for S=0x followed by hex digits (capture group 1),
case-insensitive. -/
def tryS0x (s : List Char) : Option (List Char × List Char) := do
  let a ← expCI 's' 'S' s
  let b ← expC '=' a
  let c ← expC '0' b
  let d ← expCI 'x' 'X' c
  grab isHexC d

/-- The regex S=0x([0-9A-F]+) with the i flag: group 1 of the first match. -/
def rxS (s : List Char) : Option (List Char) :=
  (scanOpt tryS0x s).map (·.1)

/-- Anchored attempt for L= followed by hex-or-colon characters. -/
def tryL (s : List Char) : Option (List Char × List Char) := do
  let a ← expCI 'l' 'L' s
  let b ← expC '=' a
  grab isHexColonC b

/-- The regex L=([0-9A-F:]+) with the i flag: group 1 of the first match. -/
def rxL (s : List Char) : Option (List Char) :=
  (scanOpt tryL s).map (·.1)

/-- Anchored attempt for the device-announce body regex
S=0x([0-9A-F]+).0,L=([0-9A-F:]+),(d+) with the i flag. -/
def tryDA (s : List Char) : Option (List Char × List Char × List Char) := do
  let (g1, r1) ← tryS0x s
  let r2 ← expC '.' r1
  let r3 ← expC '0' r2
  let r4 ← expC ',' r3
  let r5 ← expCI 'l' 'L' r4
  let r6 ← expC '=' r5
  let (g2, r7) ← grab isHexColonC r6
  let r8 ← expC ',' r7
  let (g3, _) ← grab isDigitC r8
  some (g1, g2, g3)

/-- Scanning form of the device-announce body regex. -/
def rxDA (s : List Char) : Option (List Char × List Char × List Char) :=
  scanOpt tryDA s

/-- Anchored attempt for the ZCL indication body regex
S=0x([0-9A-F]+).(d+),S=0x([0-9A-F]+).(d+),(d+),([0-9A-F]+) with the
i flag. -/
def tryZclInd (s : List Char) :
    Option (List Char × List Char × List Char × List Char × List Char × List Char) := do
  let (g1, r1) ← tryS0x s
  let r2 ← expC '.' r1
  let (g2, r3) ← grab isDigitC r2
  let r4 ← expC ',' r3
  let (g3, r5) ← tryS0x r4
  let r6 ← expC '.' r5
  let (g4, r7) ← grab isDigitC r6
  let r8 ← expC ',' r7
  let (g5, r9) ← grab isDigitC r8
  let r10 ← expC ',' r9
  let (g6, _) ← grab isHexC r10
  some (g1, g2, g3, g4, g5, g6)

/-- Scanning form of the ZCL indication body regex. -/
def rxZclInd (s : List Char) :
    Option (List Char × List Char × List Char × List Char × List Char × List Char) :=
  scanOpt tryZclInd s

/-- Neighbor table entry of a ReceivedMgmtLqiRsp line. -/
structure NeighborTableEntryM where
  extendedPanId : List Char
  ieeeAddr : List Char
  networkAddress : JSNum
  linkQuality : JSNum
  depth : JSNum
  permitJoin : JSNum
  relationship : JSNum
  rxOnWhenIdle : JSNum
  deviceType : JSNum
deriving DecidableEq

/-- Node descriptor carried by a ReceivedNodeDescRsp line. -/
structure NodeDescriptorM where
  logicalType : JSNum
  capability : JSNum
  manufacturerCode : JSNum
  maxBufferSize : JSNum
  maxTransferSize : JSNum
deriving DecidableEq

/-- Simple descriptor carried by a ReceivedSimpleDescRsp line. -/
structure SimpleDescriptorM where
  endpoint : JSNum
  profileId : JSNum
  deviceId : JSNum
  inputClusters : List JSNum
  outputClusters : List JSNum
  length : JSNum
  deviceVersion : JSNum
deriving DecidableEq

/-- The closed tagged union of decoded messages (type ParsedMessage of
the source), one constructor per variant, with the unknown variant
preserving the raw line. -/
inductive ParsedMessage where
  | ready
  | version (status : JSNum) (name keyBitmask ver : Option (List Char))
  | address (status : JSNum) (ieee : List Char) (networkAddress : JSNum)
  | deviceAnnounce (networkAddress : JSNum) (ieee : List Char) (capability : JSNum)
  | nodeDescRsp (seq networkAddress status : JSNum) (data : NodeDescriptorM)
  | activeEpRsp (seq networkAddress status : JSNum) (endpoints : List JSNum)
  | activeEpReq (seq endpoint : JSNum)
  | simpleDescRsp (seq networkAddress status : JSNum) (data : SimpleDescriptorM)
  | zclInd (srcAddr srcEp dstAddr dstEp clusterId : JSNum) (payload : List Char)
  | zclConf (endpoint sequence status : JSNum)
  | zclReq (status sequence : JSNum)
  | joinPermitted (permitted : Bool)
  | networkSettings (factoryNew : Bool) (panId : JSNum) (extendedPanId : Option (List Char))
      (channel nwkUpdateId networkAddress : JSNum)
  | mgmtLqiRsp (seq srcAddr status startIndex neighborTableEntries : JSNum)
      (neighborTableList : List NeighborTableEntryM)
  | linkTouchlink (shortAddress endpoint : JSNum)
  | zdpIeeeAddrRsp (seq srcAddr status : JSNum) (ieeeAddr : List Char) (networkAddress : JSNum)
  | unknown (raw : List Char)
deriving DecidableEq

/-- Recognized line heads, from MESSAGE_PREFIXES in constants.ts. -/
def preReady : List Char := "[TH,Ready".toList

def preVersion : List Char := "[TH,GetSwVersion".toList

def preAddr : List Char := "[Connection,GetAddress".toList

def preDA : List Char := "[Zdp,ReceivedDeviceAnnounce".toList

def preNodeDesc : List Char := "[Zdp,ReceivedNodeDescRsp".toList

def preActiveEpRsp : List Char := "[Zdp,ReceivedActiveEndPointRsp".toList

def preSendActiveEp : List Char := "[Zdp,SendActiveEndPointReq,".toList

def preSimpleDesc : List Char := "[Zdp,ReceivedSimpleDescRsp".toList

def preZclInd : List Char := "[Zcl,Ind".toList

def preZclConf : List Char := "[Zcl,Conf".toList

def preZclReq : List Char := "[Zcl,Req".toList

def preJoinPermitted : List Char := "[Zdp,JoinPermitted".toList

def preNetSettings : List Char := "[Bridge,NetworkSettings".toList

def preMgmtLqi : List Char := "[Zdp,ReceivedMgmtLqiRsp".toList

def preTouchlink : List Char := "[Link,Touchlink".toList

def preIeeeRsp : List Char := "[Zdp,ReceivedIeeeAddrRsp".toList

/-- Strip the outer brackets and split on commas, as
message.slice(1, -1).split(",") does. -/
def partsOf (m : List Char) : List (List Char) :=
  jsSplitComma (jsSlice m 1 (-1))

/-- Normalize a colon-separated hex address: remove colons, lower-case,
add the 0x marker (the ternary on ieeeMatch in the source). -/
def normIeee0x (g : List Char) : List Char :=
  '0' :: 'x' :: (g.filter (fun c => c ≠ ':')).map toLowerC

/-- Normalization used where an L= marker may still lead the field:
replace("L=", "") then remove colons and lower-case. -/
def normIeeeField (s : List Char) : List Char :=
  ((removeFirstSub ("L=".toList) s).filter (fun c => c ≠ ':')).map toLowerC

/-- Network address from an optional S=0x match: group parsed base 16,
or 0 when the regex found nothing. -/
def addrOrZero (o : Option (List Char)) : JSNum :=
  match o with
  | some g => parseIntHex g
  | none => some 0

/-- One neighbor-table group of eight comma-separated fields. -/
def lqiEntryAt (parts : List (List Char)) (off : Nat) : NeighborTableEntryM :=
  { extendedPanId := (parts.get? off).getD []
    ieeeAddr := normIeeeField ((parts.get? (off + 1)).getD [])
    networkAddress := parseIntOpt (parts.get? (off + 2))
    linkQuality := parseIntOpt (parts.get? (off + 7))
    depth := parseIntOpt (parts.get? (off + 6))
    permitJoin := parseIntOpt (parts.get? (off + 5))
    relationship := parseIntOpt (parts.get? (off + 4))
    rxOnWhenIdle := parseIntOpt (parts.get? (off + 3))
    deviceType := jsAnd (parseIntOpt (parts.get? (off + 3))) 3 }

/-- The neighbor-table for loop: it runs count times; a group is read
only while offset + 8 does not pass the end, otherwise the iteration
does nothing (the source advances offset only inside the bounds check). -/
def lqiLoop (parts : List (List Char)) : Nat → Nat → List NeighborTableEntryM → List NeighborTableEntryM
  | 0, _, acc => acc
  | n + 1, off, acc =>
    if off + 8 ≤ parts.length then lqiLoop parts n (off + 8) (acc ++ [lqiEntryAt parts off])
    else lqiLoop parts n off acc

/-- Iteration count of the for loop: i runs while i < count, so a NaN or
negative count yields zero iterations. -/
def loopCount (count : JSNum) : Nat :=
  match count with
  | none => 0
  | some v => v.toNat

/-- End index 7 + count of the endpoints slice: NaN collapses to 0 under
ToIntegerOrInfinity inside slice. -/
def plusIdx (base : Int) (count : JSNum) : Int :=
  match count with
  | none => 0
  | some v => base + v

/-- Index 13 + inClusterCount used to read the output-cluster count: a
NaN index reads undefined. -/
def plusIdxOpt {α : Type} (l : List α) (base : Int) (count : JSNum) : Option α :=
  match count with
  | none => none
  | some v => jsIndexI l (base + v)

/-- End index 14 + inCount + outCount of the output-cluster slice: NaN in
either count collapses to 0. -/
def plusIdx2 (base : Int) (a b : JSNum) : Int :=
  match a, b with
  | some x, some y => base + x + y
  | _, _ => 0

/-- Branch [Zdp,ReceivedIeeeAddrRsp (the last recognized head).  The
source dereferences parts[3].match(...)![1], parts[5].replace and
parts[6].match(...)![1] without guards: a missing field or a failed
regex throws a TypeError, modelled as none. -/
def pIeeeAddrRsp (m : List Char) : Option ParsedMessage :=
  if startsWithL preIeeeRsp m then
    let parts := partsOf m
    match parts.get? 3 with
    | none => none
    | some p3 =>
      match rxS p3 with
      | none => none
      | some g3 =>
        match parts.get? 5 with
        | none => none
        | some p5 =>
          match parts.get? 6 with
          | none => none
          | some p6 =>
            match rxS p6 with
            | none => none
            | some g6 =>
              some (.zdpIeeeAddrRsp (parseIntOpt (parts.get? 2)) (parseIntHex g3)
                (parseIntOpt (parts.get? 4)) (normIeeeField p5) (parseIntHex g6))
  else some (.unknown m)

/-- Branch [Link,Touchlink. -/
def pTouchlink (m : List Char) : Option ParsedMessage :=
  if startsWithL preTouchlink m then
    let parts := partsOf m
    some (.linkTouchlink (parseIntHexOpt (parts.get? 3)) (parseIntOpt (parts.get? 4)))
  else pIeeeAddrRsp m

/-- Branch [Zdp,ReceivedMgmtLqiRsp.  parts[3].match throws when the line
has fewer than four comma-separated fields. -/
def pMgmtLqiRsp (m : List Char) : Option ParsedMessage :=
  if startsWithL preMgmtLqi m then
    let parts := partsOf m
    match parts.get? 3 with
    | none => none
    | some p3 =>
      let count := parseIntOpt (parts.get? 7)
      some (.mgmtLqiRsp (parseIntOpt (parts.get? 2)) (addrOrZero (rxS p3))
        (parseIntOpt (parts.get? 4)) (parseIntOpt (parts.get? 6))
        (parseIntOpt (parts.get? 5)) (lqiLoop parts (loopCount count) 8 []))
  else pTouchlink m

/-- Branch [Bridge,NetworkSettings; parts[7] is read through optional
chaining, so this branch never throws. -/
def pNetworkSettings (m : List Char) : Option ParsedMessage :=
  if startsWithL preNetSettings m then
    let parts := partsOf m
    let addrM :=
      match parts.get? 7 with
      | none => none
      | some p7 => rxS p7
    some (.networkSettings (parts.get? 2 == some ("True".toList))
      (parseIntHexOpt (parts.get? 3)) (parts.get? 4) (parseIntOpt (parts.get? 5))
      (parseIntOpt (parts.get? 6)) (addrOrZero addrM))
  else pMgmtLqiRsp m

/-- Branch [Zdp,JoinPermitted: permitted is message.includes("True"). -/
def pJoinPermitted (m : List Char) : Option ParsedMessage :=
  if startsWithL preJoinPermitted m then
    some (.joinPermitted (containsSub ("True".toList) m))
  else pNetworkSettings m

/-- Branch [Zcl,Req. -/
def pZclReq (m : List Char) : Option ParsedMessage :=
  if startsWithL preZclReq m then
    let parts := partsOf m
    some (.zclReq (parseIntOpt (parts.get? 2)) (parseIntOpt (parts.get? 3)))
  else pJoinPermitted m

/-- Branch [Zcl,Conf. -/
def pZclConf (m : List Char) : Option ParsedMessage :=
  if startsWithL preZclConf m then
    let parts := partsOf m
    some (.zclConf (parseIntOpt (parts.get? 2)) (parseIntOpt (parts.get? 3))
      (parseIntOpt (parts.get? 4)))
  else pZclReq m

/-- Branch [Zcl,Ind: when the body regex fails the source falls through
to the later branches. -/
def pZclInd (m : List Char) : Option ParsedMessage :=
  if startsWithL preZclInd m then
    match rxZclInd m with
    | some (g1, g2, g3, g4, g5, g6) =>
      some (.zclInd (parseIntHex g1) (parseIntDec g2) (parseIntHex g3)
        (parseIntDec g4) (parseIntDec g5) g6)
    | none => pZclConf m
  else pZclConf m

/-- Branch [Zdp,ReceivedSimpleDescRsp.  parts[3].match throws when the
line has fewer than four comma-separated fields. -/
def pSimpleDescRsp (m : List Char) : Option ParsedMessage :=
  if startsWithL preSimpleDesc m then
    let parts := partsOf m
    match parts.get? 3 with
    | none => none
    | some p3 =>
      let inCount := parseIntOpt (parts.get? 12)
      let outCount := parseIntOpt (plusIdxOpt parts 13 inCount)
      some (.simpleDescRsp (parseIntOpt (parts.get? 2)) (addrOrZero (rxS p3))
        (parseIntOpt (parts.get? 4))
        { endpoint := parseIntOpt (parts.get? 7)
          profileId := parseIntOpt (parts.get? 8)
          deviceId := parseIntOpt (parts.get? 9)
          inputClusters := (jsSlice parts 13 (plusIdx 13 inCount)).map parseIntDec
          outputClusters :=
            (jsSlice parts (plusIdx 14 inCount) (plusIdx2 14 inCount outCount)).map parseIntDec
          length := parseIntOpt (parts.get? 6)
          deviceVersion := parseIntOpt (parts.get? 10) })
  else pZclInd m

/-- Branch [Zdp,SendActiveEndPointReq, (an echoed request line). -/
def pActiveEpReq (m : List Char) : Option ParsedMessage :=
  if startsWithL preSendActiveEp m then
    let parts := partsOf m
    some (.activeEpReq (parseIntOpt (parts.get? 3)) (parseIntOpt (parts.get? 2)))
  else pSimpleDescRsp m

/-- Branch [Zdp,ReceivedActiveEndPointRsp.  parts[3].match throws when
the line has fewer than four comma-separated fields. -/
def pActiveEpRsp (m : List Char) : Option ParsedMessage :=
  if startsWithL preActiveEpRsp m then
    let parts := partsOf m
    match parts.get? 3 with
    | none => none
    | some p3 =>
      let count := parseIntOpt (parts.get? 6)
      some (.activeEpRsp (parseIntOpt (parts.get? 2)) (addrOrZero (rxS p3))
        (parseIntOpt (parts.get? 4)) ((jsSlice parts 7 (plusIdx 7 count)).map parseIntDec))
  else pActiveEpReq m

/-- Branch [Zdp,ReceivedNodeDescRsp.  parts[3].match throws when the
line has fewer than four comma-separated fields. -/
def pNodeDescRsp (m : List Char) : Option ParsedMessage :=
  if startsWithL preNodeDesc m then
    let parts := partsOf m
    match parts.get? 3 with
    | none => none
    | some p3 =>
      some (.nodeDescRsp (parseIntOpt (parts.get? 2)) (addrOrZero (rxS p3))
        (parseIntOpt (parts.get? 4))
        { logicalType := parseIntOpt (parts.get? 6)
          capability := parseIntOpt (parts.get? 12)
          manufacturerCode := parseIntOpt (parts.get? 13)
          maxBufferSize := parseIntOpt (parts.get? 14)
          maxTransferSize := parseIntOpt (parts.get? 15) })
  else pActiveEpRsp m

/-- Branch [Zdp,ReceivedDeviceAnnounce: when the body regex fails the
source falls through to the later branches. -/
def pDeviceAnnounce (m : List Char) : Option ParsedMessage :=
  if startsWithL preDA m then
    match rxDA m with
    | some (g1, g2, g3) =>
      some (.deviceAnnounce (parseIntHex g1) (normIeee0x g2) (parseIntDec g3))
    | none => pNodeDescRsp m
  else pNodeDescRsp m

/-- Branch [Connection,GetAddress: both regex results are guarded, so
this branch never throws; a missing L= match yields the empty string. -/
def pAddress (m : List Char) : Option ParsedMessage :=
  if startsWithL preAddr m then
    let parts := partsOf m
    some (.address (parseIntOpt (parts.get? 2))
      (match rxL m with
       | some g => normIeee0x g
       | none => [])
      (addrOrZero (rxS m)))
  else pDeviceAnnounce m

/-- Branch [TH,GetSwVersion. -/
def pVersion (m : List Char) : Option ParsedMessage :=
  if startsWithL preVersion m then
    let parts := partsOf m
    some (.version (parseIntOpt (parts.get? 2)) (parts.get? 3) (parts.get? 4) (parts.get? 5))
  else pAddress m

/-- MessageParser.parse: the ordered branch chain from the source, with
the unknown fallback at the end.  The result none models a thrown
TypeError (the only branches able to throw are nodeDescRsp,
activeEpRsp, simpleDescRsp, mgmtLqiRsp and zdpIeeeAddrRsp). -/
def parse (m : List Char) : Option ParsedMessage :=
  if startsWithL preReady m then some .ready else pVersion m

/-!
CommandQueue (utils/queue.ts).  A pending command holds its matcher, the
command text, the timeout span and the absolute deadline computed when
execute registered it.  The JavaScript Map is modelled as an
insertion-ordered association list, which is exactly how Map iterates.
A Node timer is alive exactly while its entry is in the map: every path
that removes an entry (match, clear, write failure) first calls
clearTimeout, and the timeout callback itself deletes the entry it
rejects, so firing is guarded by membership.
-/

/-- One pending command of the queue. -/
structure Pending where
  matcher : ParsedMessage → Bool
  command : List Char
  timeoutMs : Int
  deadline : Int

/-- Queue state: the insertion-ordered pending map and the sequence
counter. -/
structure QueueState where
  pending : List (Nat × Pending)
  seqNum : Int

/-- Error conditions a pending command can be rejected with; the source
raises Error values whose messages distinguish these cases (the timeout
message carries the timeout span and the original command text). -/
inductive QError where
  | cleared
  | timeout (timeoutMs : Int) (command : List Char)
  | writeFailed
deriving DecidableEq

/-- Observable settlements and emissions of a queue transition. -/
inductive QEvent where
  | resolved (id : Nat) (msg : ParsedMessage)
  | rejected (id : Nat) (e : QError)
  | rxMsg (msg : ParsedMessage)
  | writeOut (data : List Char)
deriving DecidableEq

/-- Map.set: replace in place when the key exists, else append at the
end of the iteration order. -/
def mapSet (l : List (Nat × Pending)) (id : Nat) (v : Pending) : List (Nat × Pending) :=
  if l.any (fun e => e.1 == id) then
    l.map (fun e => if e.1 == id then (id, v) else e)
  else l ++ [(id, v)]

/-- Map.delete. -/
def mapDelete (l : List (Nat × Pending)) (id : Nat) : List (Nat × Pending) :=
  l.filter (fun e => e.1 != id)

/-- Map.get as used through entries(): the value stored at a key. -/
def lookupP (l : List (Nat × Pending)) (id : Nat) : Option Pending :=
  (l.find? (fun e => e.1 == id)).map (fun e => e.2)

/-- nextSequence(): pre-increment of the counter. -/
def nextSequence (st : QueueState) : Int × QueueState :=
  (st.seqNum + 1, { st with seqNum := st.seqNum + 1 })

/-- The message terminator appended by send. -/
def termChar : Char := '\r'

/-- execute(command, matcher, timeoutMs): registers the pending entry,
then writes the command followed by the terminator to the transport,
except that a falsy (empty) command skips the write entirely.  The
caller-visible promise is the entry itself; id is the fresh map key and
now the registration instant, giving the deadline now + timeoutMs. -/
def execute (st : QueueState) (id : Nat) (command : List Char)
    (matcher : ParsedMessage → Bool) (timeoutMs : Int) (now : Int) :
    QueueState × List QEvent :=
  let p : Pending := ⟨matcher, command, timeoutMs, now + timeoutMs⟩
  ({ st with pending := mapSet st.pending id p },
    if command ≠ [] then [.writeOut (command ++ [termChar])] else [])

/-- The write-failure continuation of execute: clearTimeout, delete the
entry and reject the caller. -/
def writeFailure (st : QueueState) (id : Nat) : QueueState × List QEvent :=
  match lookupP st.pending id with
  | some _ => ({ st with pending := mapDelete st.pending id }, [.rejected id .writeFailed])
  | none => (st, [])

/-- The for loop of handleMessage over pending.entries(): the first
entry whose matcher accepts the parsed message is removed and resolved
with it, and the loop returns; when no entry accepts, the message is
emitted once as an rxMsg event. -/
def handleLoop (st : QueueState) (m : ParsedMessage) :
    List (Nat × Pending) → QueueState × List QEvent
  | [] => (st, [.rxMsg m])
  | (i, p) :: rest =>
    if p.matcher m then ({ st with pending := mapDelete st.pending i }, [.resolved i m])
    else handleLoop st m rest

/-- handleMessage after parsing: offer the message to the pending
entries in registration order. -/
def handleParsed (st : QueueState) (m : ParsedMessage) : QueueState × List QEvent :=
  handleLoop st m st.pending

/-- handleMessage on the raw line: a decoder exception escapes the data
listener, so no settlement and no emission happens. -/
def handleMessage (st : QueueState) (raw : List Char) : QueueState × List QEvent :=
  match parse raw with
  | none => (st, [])
  | some m => handleParsed st m

/-- The setTimeout callback of execute, fired at some instant now with
deadline ≤ now: it deletes the entry and rejects the caller with the
timeout error carrying the span and the original command text.  The
callback can only run while the entry is still present, because every
other settlement path calls clearTimeout first. -/
def fireTimeout (st : QueueState) (id : Nat) (_now : Int) : QueueState × List QEvent :=
  match lookupP st.pending id with
  | some p =>
    ({ st with pending := mapDelete st.pending id },
      [.rejected id (.timeout p.timeoutMs p.command)])
  | none => (st, [])

/-- clear(): clearTimeout and reject every currently pending command
with the cleared condition, then empty the map. -/
def clearQueue (st : QueueState) : QueueState × List QEvent :=
  ({ st with pending := [] }, st.pending.map (fun e => .rejected e.1 .cleared))

/-- First pending id, in registration order, whose matcher accepts m. -/
def firstAccept (m : ParsedMessage) : List (Nat × Pending) → Option Nat
  | [] => none
  | (i, p) :: rest => if p.matcher m then some i else firstAccept m rest

/-!
sendZclFrameToEndpoint (the three-phase exchange of the adapter).  The
queue and the waitress are collaborators here, so their answers are an
environment record; the function itself is modelled as a pure fold over
the control flow of the source, producing the final outcome together
with the ordered list of externally visible actions (waiter
registration, the two queue.execute calls, waiter cancellation, waiting
on the indication).  waiter?.cancel() appears in the trace once per
call site executed, exactly as waitress.remove would be invoked.
-/

/-- Minimal shape of the ZclPayload delivered by the waitress. -/
structure ZclPayloadM where
  address : JSNum
  endpoint : JSNum
  clusterID : JSNum
  data : List Char
deriving DecidableEq

/-- Outcomes of the collaborators: the ack execute, the confirm execute
and the indication waiter promise. -/
structure SendEnv where
  ackR : Except QError ParsedMessage
  confR : Except QError ParsedMessage
  indR : Except (List Char) ZclPayloadM

/-- Externally visible actions of one sendZclFrameToEndpoint call, in
program order. -/
inductive SendAction where
  | registerWaiter
  | execAck (command : List Char)
  | execConf (txSeq : JSNum)
  | cancelWaiter
  | awaitInd
deriving DecidableEq

/-- Failure conditions of the exchange, mirroring the thrown errors. -/
inductive SendError where
  | queueErr (e : QError)
  | ackTypeErr
  | confStatusErr (status : JSNum)
  | waiterErr
deriving DecidableEq

/-- The waiter?.cancel() call: present in the trace only when the waiter
was registered. -/
def cancels (wReg : Bool) : List SendAction :=
  if wReg then [.cancelWaiter] else []

/-- Tail of the exchange after a zero-status confirm (or a confirm of an
unexpected shape): wait on the pre-registered waiter if one exists,
cancelling it when its promise rejects, else finish with no payload. -/
def indPhase (wReg : Bool) (acts : List SendAction) (env : SendEnv) :
    Except SendError (Option ZclPayloadM) × List SendAction :=
  if wReg then
    match env.indR with
    | .ok p => (.ok (some p), acts ++ [.awaitInd])
    | .error _ => (.error .waiterErr, acts ++ [.awaitInd] ++ [.cancelWaiter])
  else (.ok none, acts)

/-- The confResponse.type check and the non-zero status check: a
non-zero (or NaN) zclConf status cancels the waiter at the throw site
and again in the catch clause, and the call rejects. -/
def confCheck (wReg : Bool) (acts : List SendAction) (env : SendEnv) (c : ParsedMessage) :
    Except SendError (Option ZclPayloadM) × List SendAction :=
  match c with
  | .zclConf _ _ stv =>
    if stv ≠ some 0 then
      (.error (.confStatusErr stv), acts ++ cancels wReg ++ cancels wReg)
    else indPhase wReg acts env
  | _ => indPhase wReg acts env

/-- The confirm phase: queue.execute with the empty command and the
sequence-keyed matcher; a rejection of that execute is caught, cancels
the waiter and rethrows. -/
def confPhase (wReg : Bool) (acts : List SendAction) (txSeq : JSNum) (env : SendEnv) :
    Except SendError (Option ZclPayloadM) × List SendAction :=
  let acts := acts ++ [.execConf txSeq]
  match env.confR with
  | .error e => (.error (.queueErr e), acts ++ cancels wReg)
  | .ok c => confCheck wReg acts env c

/-- The ackResponse.type check: a non-zclReq ack cancels the waiter at
the throw site and again in the catch clause; a zclReq ack carries the
transmit sequence into the confirm phase. -/
def ackCheck (wReg : Bool) (acts : List SendAction) (env : SendEnv) (m : ParsedMessage) :
    Except SendError (Option ZclPayloadM) × List SendAction :=
  match m with
  | .zclReq _ s2 => confPhase wReg acts s2 env
  | _ => (.error .ackTypeErr, acts ++ cancels wReg ++ cancels wReg)

/-- sendZclFrameToEndpoint: the waiter is registered first (when
disableResponse is false and either the command has a declared response
or the default response is not disabled), then the command goes to the
queue, then the confirm is awaited, then the indication. -/
def sendZcl (disableResponse hasCmdResponse disableDefaultResponse : Bool)
    (command : List Char) (env : SendEnv) :
    Except SendError (Option ZclPayloadM) × List SendAction :=
  let wReg := !disableResponse && (hasCmdResponse || !disableDefaultResponse)
  let acts := (if wReg then [.registerWaiter] else []) ++ [.execAck command]
  match env.ackR with
  | .error e => (.error (.queueErr e), acts ++ cancels wReg)
  | .ok m => ackCheck wReg acts env m

/-!
sendZdo (adapter).  Only the command-string construction and the
networkAddress rewrite are modelled; the response translation back to
ZDO shapes is outside every claim.  The payload is the byte buffer; a
byte read out of range is undefined, readUInt16LE past the end throws
(none), and Buffer.subarray clamps.
-/

/-- The ZDO cluster identifiers the switch distinguishes. -/
inductive ZdoClusterId where
  | nodeDescriptorRequest
  | activeEndpointsRequest
  | simpleDescriptorRequest
  | ieeeAddressRequest
  | lqiTableRequest
  | bindRequest
  | unbindRequest
  | leaveRequest
  | other
deriving DecidableEq

/-- The clusters for which the switch builds a command. -/
def supportedZdo : List ZdoClusterId :=
  [.nodeDescriptorRequest, .activeEndpointsRequest, .simpleDescriptorRequest,
   .ieeeAddressRequest, .lqiTableRequest, .bindRequest, .unbindRequest, .leaveRequest]

/-- Number.prototype.toString(16) for the nonneg integers that occur
here, lower-case, and its decimal counterpart. -/
def hexStrNat (n : Nat) : List Char := Nat.toDigits 16 n

/-- Decimal rendering of a nonneg integer. -/
def decStrNat (n : Nat) : List Char := Nat.toDigits 10 n

/-- Number rendering for an Int as template interpolation does. -/
def decStrInt (i : Int) : List Char :=
  if i < 0 then '-' :: decStrNat i.natAbs else decStrNat i.toNat

/-- toString(16) on an Int. -/
def hexStrInt (i : Int) : List Char :=
  if i < 0 then '-' :: hexStrNat i.natAbs else hexStrNat i.toNat

/-- String.prototype.padStart(4, "0"). -/
def padStart4 (l : List Char) : List Char :=
  if l.length < 4 then List.replicate (4 - l.length) '0' ++ l else l

/-- The S=0x....0 address token of the ZDO command templates. -/
def addrTok (addr : Int) : List Char :=
  "S=0x".toList ++ padStart4 (hexStrInt addr) ++ ".0".toList

/-- Template interpolation of a possibly-undefined numeric field. -/
def optNumStr (o : Option Nat) : List Char :=
  match o with
  | none => "undefined".toList
  | some v => decStrNat v

/-- Buffer index access: undefined when out of range. -/
def bufGet (p : List Nat) (i : Nat) : Option Nat := p.get? i

/-- Buffer.readUInt16LE: throws when fewer than two bytes remain. -/
def readUInt16LE (p : List Nat) (off : Nat) : Option Nat :=
  if off + 2 ≤ p.length then some ((p.getD off 0) + 256 * (p.getD (off + 1) 0)) else none

/-- Two lower-case hex digits of one byte (Buffer.toString("hex")). -/
def hexByte (n : Nat) : List Char :=
  [(Nat.toDigits 16 (n / 16 % 16)).headD '0', (Nat.toDigits 16 (n % 16)).headD '0']

/-- Hex string of a byte run. -/
def bytesToHex (bs : List Nat) : List Char := bs.flatMap hexByte

/-- The 0x-prefixed reversed-byte IEEE string the bind branches build
with subarray(a, b).reverse().toString("hex"). -/
def ieeeOfBytes (p : List Nat) (a b : Nat) : List Char :=
  '0' :: 'x' :: bytesToHex (((p.drop a).take (b - a)).reverse)

/-- Join chunks with colons. -/
def joinColon : List (List Char) → List Char
  | [] => []
  | [x] => x
  | x :: y :: rest => x ++ ':' :: joinColon (y :: rest)

/-- Chunks of at most two characters, as match(/.{1,2}/g) groups them. -/
def chunk2 : List Char → List (List Char)
  | [] => []
  | [c] => [[c]]
  | a :: b :: rest => [a, b] :: chunk2 rest

/-- Strip one leading 0x, as replace with an anchored regex does. -/
def strip0x (s : List Char) : List Char :=
  match s with
  | '0' :: 'x' :: r => r
  | r => r

/-- The formatIeee helper of the bind, unbind and leave templates:
strip 0x, drop colons, regroup in hex-byte pairs joined by colons,
upper-case. -/
def formatIeee (s : List Char) : List Char :=
  (joinColon (chunk2 ((strip0x s).filter (fun c => c ≠ ':')))).map toUpperC

/-- COMMANDS.ZDP_NODE_DESC_REQ (the template repeats addr, not seq). -/
def cmdNodeDescReq (addr : Int) (_seq : Int) : List Char :=
  "[Zdp,SendNodeDescReq,".toList ++ addrTok addr ++ ',' :: decStrInt addr ++ "]".toList

/-- COMMANDS.ZDP_ACTIVE_EP_REQ (the template repeats addr, not seq). -/
def cmdActiveEpReq (addr : Int) (_seq : Int) : List Char :=
  "[Zdp,SendActiveEndPointReq,".toList ++ addrTok addr ++ ',' :: decStrInt addr ++ "]".toList

/-- COMMANDS.ZDP_SIMPLE_DESC_REQ. -/
def cmdSimpleDescReq (addr : Int) (_seq : Int) (endpoint : Option Nat) : List Char :=
  "[Zdp,SendSimpleDescReq,".toList ++ addrTok addr ++ ',' :: decStrInt addr
    ++ ',' :: optNumStr endpoint ++ "]".toList

/-- COMMANDS.ZDP_IEEE_ADDR_REQ. -/
def cmdIeeeAddrReq (addr : Int) (seq : Int) : List Char :=
  "[Zdp,IeeeAddrReq,".toList ++ addrTok addr ++ ',' :: decStrInt seq ++ "]".toList

/-- COMMANDS.ZDP_MGMT_LQI_REQ. -/
def cmdMgmtLqiReq (addr : Int) (startIndex : Option Nat) : List Char :=
  "[Zdp,SendMgmtLqiReq,".toList ++ addrTok addr ++ ',' :: optNumStr startIndex ++ "]".toList

/-- COMMANDS.ZDP_BIND_REQ. -/
def cmdBindReq (addr : Int) (srcIeee : List Char) (srcEndpoint : Option Nat)
    (clusterId : Nat) (destAddr : List Char) (destEndpoint : Option Nat) : List Char :=
  "[Zdp,SendBindReq,".toList ++ addrTok addr ++ ',' :: 'L' :: '=' :: formatIeee srcIeee
    ++ '.' :: optNumStr srcEndpoint ++ ',' :: decStrNat clusterId
    ++ ',' :: 'L' :: '=' :: formatIeee destAddr ++ '.' :: optNumStr destEndpoint ++ "]".toList

/-- COMMANDS.ZDP_UNBIND_REQ. -/
def cmdUnbindReq (addr : Int) (srcIeee : List Char) (srcEndpoint : Option Nat)
    (clusterId : Nat) (destAddr : List Char) (destEndpoint : Option Nat) : List Char :=
  "[Zdp,SendUnbindReq,".toList ++ addrTok addr ++ ',' :: 'L' :: '=' :: formatIeee srcIeee
    ++ '.' :: optNumStr srcEndpoint ++ ',' :: decStrNat clusterId
    ++ ',' :: 'L' :: '=' :: formatIeee destAddr ++ '.' :: optNumStr destEndpoint ++ "]".toList

/-- COMMANDS.ZDP_MGMT_LEAVE_REQ. -/
def cmdMgmtLeaveReq (addr : Int) (deviceIeee : List Char) (rejoin removeChildren : Bool) :
    List Char :=
  "[Zdp,SendMgmtLeaveReq,".toList ++ addrTok addr ++ ',' :: 'L' :: '=' :: formatIeee deviceIeee
    ++ ',' :: (if rejoin then "True".toList else "False".toList)
    ++ ',' :: (if removeChildren then "True".toList else "False".toList) ++ "]".toList

/-- The flag test (flags & mask) !== 0 where flags may be undefined. -/
def flagSet (flags : Option Nat) (mask : Nat) : Bool :=
  match flags with
  | none => false
  | some v => (v &&& mask) ≠ 0

/-- The switch body of sendZdo: the command string built for the given
cluster from the already-rewritten network address, the payload bytes
and the fresh sequence number.  none models a thrown RangeError from
readUInt16LE; an unsupported cluster and a bind with an unrecognized
destination mode leave the command empty. -/
def zdoSwitch (clusterId : ZdoClusterId) (na : Int) (payload : List Nat) (seq : Int) :
    Option (List Char) :=
  match clusterId with
  | .nodeDescriptorRequest => some (cmdNodeDescReq na seq)
  | .activeEndpointsRequest => some (cmdActiveEpReq na seq)
  | .simpleDescriptorRequest => some (cmdSimpleDescReq na seq (bufGet payload 3))
  | .ieeeAddressRequest => some (cmdIeeeAddrReq na seq)
  | .lqiTableRequest => some (cmdMgmtLqiReq na (bufGet payload 0))
  | .bindRequest =>
    let srcIeee := ieeeOfBytes payload 1 9
    let srcEndpoint := bufGet payload 9
    match readUInt16LE payload 10 with
    | none => none
    | some clusterIdFromPayload =>
      if bufGet payload 12 = some 3 then
        some (cmdBindReq na srcIeee srcEndpoint clusterIdFromPayload
          (ieeeOfBytes payload 13 21) (bufGet payload 21))
      else if bufGet payload 12 = some 1 then
        match readUInt16LE payload 13 with
        | none => none
        | some destGroup =>
          some (cmdBindReq na srcIeee srcEndpoint clusterIdFromPayload
            (hexStrNat destGroup) (some 0))
      else some []
  | .unbindRequest =>
    let srcIeee := ieeeOfBytes payload 1 9
    let srcEndpoint := bufGet payload 9
    match readUInt16LE payload 10 with
    | none => none
    | some clusterIdFromPayload =>
      if bufGet payload 12 = some 3 then
        some (cmdUnbindReq na srcIeee srcEndpoint clusterIdFromPayload
          (ieeeOfBytes payload 13 21) (bufGet payload 21))
      else if bufGet payload 12 = some 1 then
        match readUInt16LE payload 13 with
        | none => none
        | some destGroup =>
          some (cmdUnbindReq na srcIeee srcEndpoint clusterIdFromPayload
            (hexStrNat destGroup) (some 0))
      else some []
  | .leaveRequest =>
    some (cmdMgmtLeaveReq na (ieeeOfBytes payload 1 9)
      (flagSet (bufGet payload 9) 128) (flagSet (bufGet payload 9) 64))
  | .other => some []

/-- sendZdo command construction: the coordinator address 0 is rewritten
to 1 before the switch runs, so every template receives the rewritten
address. -/
def buildZdoCmd (clusterId : ZdoClusterId) (networkAddress : Int) (payload : List Nat)
    (seq : Int) : Option (List Char) :=
  let na := if networkAddress = 0 then 1 else networkAddress
  zdoSwitch clusterId na payload seq

/-!
Helper lemmas about the queue model.
-/

theorem lookupP_mapSet_fresh (l : List (Nat × Pending)) (id : Nat) (p : Pending)
    (h : l.all (fun e => e.1 != id) = true) :
    lookupP (mapSet l id p) id = some p := by
  have hany : l.any (fun e => e.1 == id) = false := by
    rw [List.any_eq_false]
    intro e he
    have := List.all_eq_true.mp h e he
    simpa [bne] using this
  have hfind : l.find? (fun e => e.1 == id) = none := by
    rw [List.find?_eq_none]
    intro e he
    have := List.all_eq_true.mp h e he
    simpa [bne] using this
  unfold mapSet
  rw [hany]
  simp [lookupP, List.find?_append, hfind, List.find?]

theorem lookupP_mapDelete_self (l : List (Nat × Pending)) (id : Nat) :
    lookupP (mapDelete l id) id = none := by
  induction l with
  | nil => rfl
  | cons e rest ih =>
    have hcons : mapDelete (e :: rest) id =
        if e.1 != id then e :: mapDelete rest id else mapDelete rest id := by
      simp [mapDelete, List.filter_cons]
    by_cases he : e.1 = id
    · rw [hcons, if_neg (by simp [he])]
      exact ih
    · rw [hcons, if_pos (by simp [he])]
      show ((e :: mapDelete rest id).find? (fun x => x.1 == id)).map (fun x => x.2) = none
      rw [List.find?_cons_of_neg _ (by simp [he])]
      exact ih

theorem notMem_mapDelete_fst (l : List (Nat × Pending)) (id : Nat) :
    id ∉ (mapDelete l id).map Prod.fst := by
  intro h
  obtain ⟨e, he, hfst⟩ := List.mem_map.mp h
  have := (List.mem_filter.mp he).2
  rw [hfst] at this
  simp at this

theorem resolved_mem_handleLoop (st : QueueState) (m mm : ParsedMessage) (i : Nat) :
    ∀ l : List (Nat × Pending),
      QEvent.resolved i mm ∈ (handleLoop st m l).2 → i ∈ l.map Prod.fst := by
  intro l
  induction l with
  | nil => intro h; simp [handleLoop] at h
  | cons e rest ih =>
    obtain ⟨j, p⟩ := e
    intro h
    by_cases hm : p.matcher m
    · simp [handleLoop, hm] at h
      simp [h.1]
    · simp only [handleLoop, hm, if_neg, Bool.false_eq_true, if_false] at h
      exact List.mem_cons_of_mem _ (ih h)

theorem handleLoop_spec (st : QueueState) (m : ParsedMessage) :
    ∀ l : List (Nat × Pending),
      (∃ i, firstAccept m l = some i ∧
        handleLoop st m l = ({ st with pending := mapDelete st.pending i }, [.resolved i m])) ∨
      (firstAccept m l = none ∧ handleLoop st m l = (st, [.rxMsg m])) := by
  intro l
  induction l with
  | nil => exact Or.inr ⟨rfl, rfl⟩
  | cons e rest ih =>
    obtain ⟨j, p⟩ := e
    by_cases hm : p.matcher m
    · exact Or.inl ⟨j, by simp [firstAccept, hm], by simp [handleLoop, hm]⟩
    · rcases ih with ⟨i, hfa, hloop⟩ | ⟨hfa, hloop⟩
      · exact Or.inl ⟨i, by simp [firstAccept, hm, hfa], by simp [handleLoop, hm, hloop]⟩
      · exact Or.inr ⟨by simp [firstAccept, hm, hfa], by simp [handleLoop, hm, hloop]⟩

/-- C2: with two pending commands registered in order and an incoming
message whose parsed form satisfies both matchers, handleMessage
resolves the command registered first with that message, and the
second stays in the pending map. -/
theorem fifo_first_registered_wins (st0 : QueueState) (h0 : st0.pending = [])
    (i1 i2 : Nat) (h12 : i1 ≠ i2) (cmd1 cmd2 : List Char)
    (m1 m2 : ParsedMessage → Bool) (t1 t2 now1 now2 : Int) (msg : ParsedMessage)
    (hm1 : m1 msg = true) (_hm2 : m2 msg = true) :
    (handleParsed ((execute ((execute st0 i1 cmd1 m1 t1 now1).1) i2 cmd2 m2 t2 now2).1) msg).2
      = [.resolved i1 msg] ∧
    (handleParsed ((execute ((execute st0 i1 cmd1 m1 t1 now1).1) i2 cmd2 m2 t2 now2).1) msg).1.pending
      = [(i2, ⟨m2, cmd2, t2, now2 + t2⟩)] := by
  have hne : (i1 == i2) = false := by simp [h12]
  have hp1 : ((execute st0 i1 cmd1 m1 t1 now1).1).pending
      = [(i1, ⟨m1, cmd1, t1, now1 + t1⟩)] := by
    simp [execute, mapSet, h0]
  have hp2 : ((execute ((execute st0 i1 cmd1 m1 t1 now1).1) i2 cmd2 m2 t2 now2).1).pending
      = [(i1, ⟨m1, cmd1, t1, now1 + t1⟩), (i2, ⟨m2, cmd2, t2, now2 + t2⟩)] := by
    have hstep : ((execute ((execute st0 i1 cmd1 m1 t1 now1).1) i2 cmd2 m2 t2 now2).1).pending
        = mapSet ((execute st0 i1 cmd1 m1 t1 now1).1).pending i2 ⟨m2, cmd2, t2, now2 + t2⟩ := rfl
    rw [hstep, hp1]
    simp [mapSet, hne]
  constructor
  · simp [handleParsed, hp2, handleLoop, hm1]
  · simp [handleParsed, hp2, handleLoop, hm1, mapDelete, List.filter_cons, h12, Ne.symm h12]

/-- C2 witness: two always-true matchers registered in order both accept
the ready message; the first settles, the second remains pending. -/
theorem fifo_first_registered_wins_w :
    (handleParsed ((execute ((execute ⟨[], 0⟩ 1 [] (fun _ => true) 5 0).1) 2 [] (fun _ => true) 5 0).1) .ready).2
      = [.resolved 1 .ready] ∧
    (handleParsed ((execute ((execute ⟨[], 0⟩ 1 [] (fun _ => true) 5 0).1) 2 [] (fun _ => true) 5 0).1) .ready).1.pending
      = [(2, ⟨fun _ => true, [], 5, 0 + 5⟩)] :=
  fifo_first_registered_wins ⟨[], 0⟩ rfl 1 2 (by decide) [] [] (fun _ => true) (fun _ => true)
    5 5 0 0 .ready rfl rfl

/-- C3: every offered message produces exactly one event; when some
registered matcher accepts it, the event is the resolution of the first
accepting entry and no rxMsg event is emitted, and when none accepts, a
single rxMsg event is emitted. -/
theorem at_most_one_settlement (st : QueueState) (m : ParsedMessage) :
    ((∃ i, firstAccept m st.pending = some i ∧
        (handleParsed st m).2 = [.resolved i m] ∧
        QEvent.rxMsg m ∉ (handleParsed st m).2) ∨
      (firstAccept m st.pending = none ∧ (handleParsed st m).2 = [.rxMsg m])) ∧
    (handleParsed st m).2.length = 1 := by
  rcases handleLoop_spec st m st.pending with ⟨i, hfa, hloop⟩ | ⟨hfa, hloop⟩
  · have hev : (handleParsed st m).2 = [.resolved i m] := by
      unfold handleParsed
      rw [hloop]
    exact ⟨Or.inl ⟨i, hfa, hev, by rw [hev]; simp⟩, by rw [hev]; rfl⟩
  · have hev : (handleParsed st m).2 = [.rxMsg m] := by
      unfold handleParsed
      rw [hloop]
    exact ⟨Or.inr ⟨hfa, hev⟩, by rw [hev]; rfl⟩

/-- C5: clear settles every currently pending command exactly once with
the cleared condition, never with a timeout condition, empties the map,
and a command registered after the clear is untouched by it and sits in
the new map. -/
theorem clear_settles_all (st : QueueState) (id idf : Nat) (cmdf : List Char)
    (mf : ParsedMessage → Bool) (tf nowf : Int)
    (hmem : id ∈ st.pending.map Prod.fst)
    (hnodup : (st.pending.map Prod.fst).Nodup)
    (hf : idf ∉ st.pending.map Prod.fst) :
    (clearQueue st).1.pending = [] ∧
    (clearQueue st).2 = st.pending.map (fun e => .rejected e.1 .cleared) ∧
    List.count (QEvent.rejected id .cleared) (clearQueue st).2 = 1 ∧
    (∀ tm c, QEvent.rejected id (.timeout tm c) ∉ (clearQueue st).2) ∧
    QEvent.rejected idf .cleared ∉ (clearQueue st).2 ∧
    lookupP ((execute (clearQueue st).1 idf cmdf mf tf nowf).1).pending idf
      = some ⟨mf, cmdf, tf, nowf + tf⟩ := by
  refine ⟨rfl, rfl, ?_, ?_, ?_, ?_⟩
  · have hinj : Function.Injective (fun i => QEvent.rejected i .cleared) := by
      intro a b h
      cases h
      rfl
    have hmm : (clearQueue st).2
        = (st.pending.map Prod.fst).map (fun i => QEvent.rejected i .cleared) := by
      show st.pending.map (fun e => QEvent.rejected e.1 .cleared) = _
      rw [List.map_map]
      rfl
    rw [hmm, List.count_map_of_injective _ _ hinj]
    exact List.count_eq_one_of_mem hnodup hmem
  · intro tm c h
    obtain ⟨e, _, heq⟩ := List.mem_map.mp h
    simp at heq
  · intro h
    obtain ⟨e, he, heq⟩ := List.mem_map.mp h
    have : QEvent.rejected e.1 QError.cleared = QEvent.rejected idf QError.cleared := heq
    have hfst : e.1 = idf := by
      cases this
      rfl
    exact hf (List.mem_map.mpr ⟨e, he, hfst⟩)
  · exact lookupP_mapSet_fresh [] idf _ rfl

/-- C5 witness: a queue with pending ids 1 and 2 is cleared; id 1 is
settled cleared exactly once, the fresh id 7 is not settled, and a
command registered afterwards under id 7 is pending. -/
theorem clear_settles_all_w :
    (clearQueue ⟨[(1, ⟨fun _ => false, [], 5, 5⟩), (2, ⟨fun _ => false, [], 5, 5⟩)], 0⟩).1.pending = [] ∧
    (clearQueue ⟨[(1, ⟨fun _ => false, [], 5, 5⟩), (2, ⟨fun _ => false, [], 5, 5⟩)], 0⟩).2
      = [(1, (⟨fun _ => false, [], 5, 5⟩ : Pending)), (2, ⟨fun _ => false, [], 5, 5⟩)].map
          (fun e => .rejected e.1 .cleared) ∧
    List.count (QEvent.rejected 1 .cleared)
      (clearQueue ⟨[(1, ⟨fun _ => false, [], 5, 5⟩), (2, ⟨fun _ => false, [], 5, 5⟩)], 0⟩).2 = 1 ∧
    (∀ tm c, QEvent.rejected 1 (.timeout tm c)
      ∉ (clearQueue ⟨[(1, ⟨fun _ => false, [], 5, 5⟩), (2, ⟨fun _ => false, [], 5, 5⟩)], 0⟩).2) ∧
    QEvent.rejected 7 .cleared
      ∉ (clearQueue ⟨[(1, ⟨fun _ => false, [], 5, 5⟩), (2, ⟨fun _ => false, [], 5, 5⟩)], 0⟩).2 ∧
    lookupP ((execute (clearQueue ⟨[(1, ⟨fun _ => false, [], 5, 5⟩), (2, ⟨fun _ => false, [], 5, 5⟩)], 0⟩).1
        7 [] (fun _ => false) 9 1).1).pending 7 = some ⟨fun _ => false, [], 9, 1 + 9⟩ :=
  clear_settles_all ⟨[(1, ⟨fun _ => false, [], 5, 5⟩), (2, ⟨fun _ => false, [], 5, 5⟩)], 0⟩
    1 7 [] (fun _ => false) 9 1 (by decide) (by decide) (by decide)

theorem firstAccept_none_of_all_false (m : ParsedMessage) (l : List (Nat × Pending))
    (h : l.all (fun e => !(e.2.matcher m)) = true) : firstAccept m l = none := by
  induction l with
  | nil => rfl
  | cons e rest ih =>
    simp only [List.all_cons, Bool.and_eq_true] at h
    have hm : e.2.matcher m = false := by simpa using h.1
    simp [firstAccept, hm, ih h.2]

/-- C6: a command registered by execute is pending with its deadline
now + timeoutMs; a message no registered matcher accepts leaves the
queue state unchanged; when the timer fires at any t at or past the
deadline the command is rejected with the timeout condition carrying
the original command text, it leaves the map, and no message arriving
afterwards can resolve it. -/
theorem execute_timeout_settles (st0 : QueueState) (id : Nat) (cmd : List Char)
    (matcher : ParsedMessage → Bool) (timeoutMs now t : Int)
    (hfresh : st0.pending.all (fun e => e.1 != id) = true)
    (_ht : now + timeoutMs ≤ t) :
    lookupP ((execute st0 id cmd matcher timeoutMs now).1).pending id
      = some ⟨matcher, cmd, timeoutMs, now + timeoutMs⟩ ∧
    (∀ m, ((execute st0 id cmd matcher timeoutMs now).1).pending.all
        (fun e => !(e.2.matcher m)) = true →
      handleParsed ((execute st0 id cmd matcher timeoutMs now).1) m
        = ((execute st0 id cmd matcher timeoutMs now).1, [.rxMsg m])) ∧
    fireTimeout ((execute st0 id cmd matcher timeoutMs now).1) id t
      = ({ (execute st0 id cmd matcher timeoutMs now).1 with
            pending := mapDelete ((execute st0 id cmd matcher timeoutMs now).1).pending id },
          [.rejected id (.timeout timeoutMs cmd)]) ∧
    lookupP ((fireTimeout ((execute st0 id cmd matcher timeoutMs now).1) id t).1).pending id = none ∧
    ∀ m mm, QEvent.resolved id mm
      ∉ (handleParsed ((fireTimeout ((execute st0 id cmd matcher timeoutMs now).1) id t).1) m).2 := by
  have hlook : lookupP ((execute st0 id cmd matcher timeoutMs now).1).pending id
      = some ⟨matcher, cmd, timeoutMs, now + timeoutMs⟩ :=
    lookupP_mapSet_fresh st0.pending id _ hfresh
  have hfire : fireTimeout ((execute st0 id cmd matcher timeoutMs now).1) id t
      = ({ (execute st0 id cmd matcher timeoutMs now).1 with
            pending := mapDelete ((execute st0 id cmd matcher timeoutMs now).1).pending id },
          [.rejected id (.timeout timeoutMs cmd)]) := by
    unfold fireTimeout
    rw [hlook]
  refine ⟨hlook, ?_, hfire, ?_, ?_⟩
  · intro m hm
    have hfa := firstAccept_none_of_all_false m _ hm
    rcases handleLoop_spec ((execute st0 id cmd matcher timeoutMs now).1) m
        ((execute st0 id cmd matcher timeoutMs now).1).pending with ⟨i, hfa2, _⟩ | ⟨_, hloop⟩
    · rw [hfa] at hfa2
      exact absurd hfa2 (by simp)
    · unfold handleParsed
      rw [hloop]
  · rw [hfire]
    exact lookupP_mapDelete_self _ id
  · intro m mm h
    rw [hfire] at h
    exact notMem_mapDelete_fst _ id (resolved_mem_handleLoop _ m mm id _ h)

/-- C6 witness: a command registered at instant 0 with timeout 5 fires
at instant 6 and is rejected with the timeout condition. -/
theorem execute_timeout_settles_w :
    lookupP ((execute ⟨[], 0⟩ 1 ("ab".toList) (fun _ => false) 5 0).1).pending 1
      = some ⟨fun _ => false, "ab".toList, 5, 0 + 5⟩ ∧
    (∀ m, ((execute ⟨[], 0⟩ 1 ("ab".toList) (fun _ => false) 5 0).1).pending.all
        (fun e => !(e.2.matcher m)) = true →
      handleParsed ((execute ⟨[], 0⟩ 1 ("ab".toList) (fun _ => false) 5 0).1) m
        = ((execute ⟨[], 0⟩ 1 ("ab".toList) (fun _ => false) 5 0).1, [.rxMsg m])) ∧
    fireTimeout ((execute ⟨[], 0⟩ 1 ("ab".toList) (fun _ => false) 5 0).1) 1 6
      = ({ (execute ⟨[], 0⟩ 1 ("ab".toList) (fun _ => false) 5 0).1 with
            pending := mapDelete ((execute ⟨[], 0⟩ 1 ("ab".toList) (fun _ => false) 5 0).1).pending 1 },
          [.rejected 1 (.timeout 5 ("ab".toList))]) ∧
    lookupP ((fireTimeout ((execute ⟨[], 0⟩ 1 ("ab".toList) (fun _ => false) 5 0).1) 1 6).1).pending 1 = none ∧
    ∀ m mm, QEvent.resolved 1 mm
      ∉ (handleParsed ((fireTimeout ((execute ⟨[], 0⟩ 1 ("ab".toList) (fun _ => false) 5 0).1) 1 6).1) m).2 :=
  execute_timeout_settles ⟨[], 0⟩ 1 ("ab".toList) (fun _ => false) 5 0 6 rfl (by decide)

/-- C8: execute with the empty command registers the matcher but emits
no transport write; the entry then sits in the pending map, where only a
matching message, its timer or a clear can settle it. -/
theorem execute_empty_registers_only (st : QueueState) (id : Nat)
    (matcher : ParsedMessage → Bool) (timeoutMs now : Int)
    (hfresh : st.pending.all (fun e => e.1 != id) = true) :
    (execute st id [] matcher timeoutMs now).2 = [] ∧
    lookupP ((execute st id [] matcher timeoutMs now).1).pending id
      = some ⟨matcher, [], timeoutMs, now + timeoutMs⟩ := by
  refine ⟨?_, lookupP_mapSet_fresh _ _ _ hfresh⟩
  simp [execute]

/-- C8 witness: registering the confirm-phase style empty command emits
no write and the matcher is pending. -/
theorem execute_empty_registers_only_w :
    (execute ⟨[], 0⟩ 3 [] (fun _ => true) 5 2).2 = [] ∧
    lookupP ((execute ⟨[], 0⟩ 3 [] (fun _ => true) 5 2).1).pending 3
      = some ⟨fun _ => true, [], 5, 2 + 5⟩ :=
  execute_empty_registers_only ⟨[], 0⟩ 3 (fun _ => true) 5 2 rfl

/-!
Helper lemmas about the action traces of the exchange phases: each phase
only appends to the actions accumulated so far.
-/

theorem indPhase_acts (w : Bool) (acts : List SendAction) (env : SendEnv) :
    ∃ t, (indPhase w acts env).2 = acts ++ t := by
  unfold indPhase
  cases hi : env.indR with
  | error e =>
    by_cases hw : w
    · exact ⟨[.awaitInd, .cancelWaiter], by simp [hw, List.append_assoc]⟩
    · exact ⟨[], by simp [hw]⟩
  | ok p =>
    by_cases hw : w
    · exact ⟨[.awaitInd], by simp [hw]⟩
    · exact ⟨[], by simp [hw]⟩

theorem confCheck_acts (w : Bool) (acts : List SendAction) (env : SendEnv) (c : ParsedMessage) :
    ∃ t, (confCheck w acts env c).2 = acts ++ t := by
  unfold confCheck
  split
  · split
    · exact ⟨cancels w ++ cancels w, by simp [List.append_assoc]⟩
    · exact indPhase_acts w acts env
  · exact indPhase_acts w acts env

theorem confPhase_acts (w : Bool) (acts : List SendAction) (txSeq : JSNum) (env : SendEnv) :
    ∃ t, (confPhase w acts txSeq env).2 = acts ++ t := by
  cases hc : env.confR with
  | error e =>
    exact ⟨[.execConf txSeq] ++ cancels w, by simp [confPhase, hc, List.append_assoc]⟩
  | ok c =>
    obtain ⟨t, ht⟩ := confCheck_acts w (acts ++ [.execConf txSeq]) env c
    exact ⟨[.execConf txSeq] ++ t, by simp [confPhase, hc, ht, List.append_assoc]⟩

theorem ackCheck_acts (w : Bool) (acts : List SendAction) (env : SendEnv) (m : ParsedMessage) :
    ∃ t, (ackCheck w acts env m).2 = acts ++ t := by
  unfold ackCheck
  split
  · exact confPhase_acts w acts _ env
  · exact ⟨cancels w ++ cancels w, by simp [List.append_assoc]⟩

theorem sendZcl_acts (dr hasCmd ddr : Bool) (cmd : List Char) (env : SendEnv) :
    ∃ t, (sendZcl dr hasCmd ddr cmd env).2
      = ((if (!dr && (hasCmd || !ddr)) then [SendAction.registerWaiter] else [])
          ++ [.execAck cmd]) ++ t := by
  cases ha : env.ackR with
  | error e =>
    exact ⟨cancels (!dr && (hasCmd || !ddr)), by simp [sendZcl, ha, List.append_assoc]⟩
  | ok m =>
    obtain ⟨t, ht⟩ := ackCheck_acts (!dr && (hasCmd || !ddr))
      ((if (!dr && (hasCmd || !ddr)) then [SendAction.registerWaiter] else [])
        ++ [.execAck cmd]) env m
    exact ⟨t, by simp only [sendZcl, ha]; exact ht⟩

/-- C4: in the three-phase exchange with a response expected, the waiter
is registered before the ack command goes to the queue; a rejected ack
execute, a rejected confirm execute or a non-zero zclConf status each
make the call fail, cancel the waiter, and never reach the await of the
waiter. -/
theorem send_confirm_failure_cancels_waiter (hasCmdResponse disableDefaultResponse : Bool)
    (command : List Char) (env : SendEnv)
    (hw : (hasCmdResponse || !disableDefaultResponse) = true) :
    (sendZcl false hasCmdResponse disableDefaultResponse command env).2.take 2
      = [.registerWaiter, .execAck command] ∧
    (∀ e, env.ackR = .error e →
      (sendZcl false hasCmdResponse disableDefaultResponse command env).1
          = .error (.queueErr e) ∧
      SendAction.cancelWaiter ∈ (sendZcl false hasCmdResponse disableDefaultResponse command env).2 ∧
      SendAction.awaitInd ∉ (sendZcl false hasCmdResponse disableDefaultResponse command env).2) ∧
    (∀ s1 s2 e, env.ackR = .ok (.zclReq s1 s2) → env.confR = .error e →
      (sendZcl false hasCmdResponse disableDefaultResponse command env).1
          = .error (.queueErr e) ∧
      SendAction.cancelWaiter ∈ (sendZcl false hasCmdResponse disableDefaultResponse command env).2 ∧
      SendAction.awaitInd ∉ (sendZcl false hasCmdResponse disableDefaultResponse command env).2) ∧
    (∀ s1 s2 ep sq stv, env.ackR = .ok (.zclReq s1 s2) →
      env.confR = .ok (.zclConf ep sq stv) → stv ≠ some 0 →
      (sendZcl false hasCmdResponse disableDefaultResponse command env).1
          = .error (.confStatusErr stv) ∧
      SendAction.cancelWaiter ∈ (sendZcl false hasCmdResponse disableDefaultResponse command env).2 ∧
      SendAction.awaitInd ∉ (sendZcl false hasCmdResponse disableDefaultResponse command env).2) := by
  refine ⟨?_, ?_, ?_, ?_⟩
  · obtain ⟨t, ht⟩ := sendZcl_acts false hasCmdResponse disableDefaultResponse command env
    rw [ht]
    simp only [Bool.not_false, Bool.true_and, hw, if_pos]
    exact List.take_left [SendAction.registerWaiter, SendAction.execAck command] t
  · intro e ha
    refine ⟨?_, ?_, ?_⟩ <;> simp [sendZcl, ha, hw, cancels]
  · intro s1 s2 e ha hc
    refine ⟨?_, ?_, ?_⟩ <;> simp [sendZcl, ackCheck, confPhase, ha, hc, hw, cancels]
  · intro s1 s2 ep sq stv ha hc hstv
    refine ⟨?_, ?_, ?_⟩ <;>
      simp [sendZcl, ackCheck, confPhase, confCheck, ha, hc, hstv, hw, cancels]

/-- Environment for the C4 witness: the ack resolves as zclReq, the
confirm resolves as zclConf with the non-zero status 1, the indication
promise would reject. -/
def c4env : SendEnv :=
  ⟨.ok (.zclReq (some 0) (some 21)), .ok (.zclConf (some 64) (some 21) (some 1)), .error []⟩

/-- C4 witness: with a declared command response and conf status 1 the
call fails with the conf status, the waiter was registered before the
ack write, was cancelled, and was never awaited. -/
theorem send_confirm_failure_cancels_waiter_w :
    (sendZcl false true false ("X".toList) c4env).2.take 2
      = [.registerWaiter, .execAck ("X".toList)] ∧
    ((sendZcl false true false ("X".toList) c4env).1 = .error (.confStatusErr (some 1)) ∧
      SendAction.cancelWaiter ∈ (sendZcl false true false ("X".toList) c4env).2 ∧
      SendAction.awaitInd ∉ (sendZcl false true false ("X".toList) c4env).2) := by
  have h := send_confirm_failure_cancels_waiter true false ("X".toList) c4env (by decide)
  exact ⟨h.1, h.2.2.2 (some 0) (some 21) (some 64) (some 21) (some 1) rfl rfl (by decide)⟩

/-- C1: contrary to the totality stated by the spec, the decoder throws
a TypeError on the truncated lines consisting of just the
ReceivedIeeeAddrRsp or ReceivedNodeDescRsp head, because parts[3] is
undefined there (and on a failed regex the non-null assertion
dereferences null). -/
theorem parse_throws_on_truncated_heads :
    parse ("[Zdp,ReceivedIeeeAddrRsp".toList) = none ∧
    parse ("[Zdp,ReceivedNodeDescRsp".toList) = none := by decide

/-- C7: the literal device-announce line decodes to the deviceAnnounce
variant with network address 3, the colon-stripped lower-cased
0x-prefixed ieee string, and capability 128. -/
theorem device_announce_literal :
    parse ("[Zdp,ReceivedDeviceAnnounce,S=0x0003.0,L=A4:C1:38:E3:B9:14:32:8B,128]".toList)
      = some (.deviceAnnounce (some 3) ("0xa4c138e3b914328b".toList) (some 128)) := by decide

/-- C9: a line with the deviceAnnounce head whose body defeats that
branch regex, or one with the zclInd head whose body defeats that
branch regex, falls through every later branch and comes back as the
unknown variant carrying the raw line. -/
theorem malformed_known_head_yields_unknown (t : List Char) :
    (rxDA (preDA ++ t) = none → parse (preDA ++ t) = some (.unknown (preDA ++ t))) ∧
    (rxZclInd (preZclInd ++ t) = none →
      parse (preZclInd ++ t) = some (.unknown (preZclInd ++ t))) := by
  constructor
  · intro h
    have key : parse (preDA ++ t)
        = (match rxDA (preDA ++ t) with
           | some (g1, g2, g3) =>
             some (.deviceAnnounce (parseIntHex g1) (normIeee0x g2) (parseIntDec g3))
           | none => some (.unknown (preDA ++ t))) := rfl
    rw [key, h]
  · intro h
    have key : parse (preZclInd ++ t)
        = (match rxZclInd (preZclInd ++ t) with
           | some (g1, g2, g3, g4, g5, g6) =>
             some (.zclInd (parseIntHex g1) (parseIntDec g2) (parseIntHex g3)
               (parseIntDec g4) (parseIntDec g5) g6)
           | none => some (.unknown (preZclInd ++ t))) := rfl
    rw [key, h]

/-- C9 witness: the two heads closed with a bare bracket defeat their
regexes and decode to the unknown variant. -/
theorem malformed_known_head_yields_unknown_w :
    parse (preDA ++ ("]".toList)) = some (.unknown (preDA ++ ("]".toList))) ∧
    parse (preZclInd ++ ("]".toList)) = some (.unknown (preZclInd ++ ("]".toList))) :=
  ⟨(malformed_known_head_yields_unknown ("]".toList)).1 rfl,
   (malformed_known_head_yields_unknown ("]".toList)).2 rfl⟩

/-- C10: for every supported ZDO cluster, requesting the coordinator
address 0 builds the same command as requesting address 1, and whenever
a nonempty command is built it carries the S=0x0001.0 address token. -/
theorem zdo_zero_address_rewritten (c : ZdoClusterId) (payload : List Nat) (seq : Int)
    (hc : c ∈ supportedZdo) :
    buildZdoCmd c 0 payload seq = buildZdoCmd c 1 payload seq ∧
    ∀ cmd, buildZdoCmd c 0 payload seq = some cmd → cmd ≠ [] →
      containsSub ("S=0x0001.0".toList) cmd = true := by
  refine ⟨rfl, ?_⟩
  intro cmd hcmd hne
  cases c with
  | nodeDescriptorRequest =>
    have h2 : some (cmdNodeDescReq 1 seq) = some cmd := hcmd
    obtain rfl := Option.some.inj h2
    rfl
  | activeEndpointsRequest =>
    have h2 : some (cmdActiveEpReq 1 seq) = some cmd := hcmd
    obtain rfl := Option.some.inj h2
    rfl
  | simpleDescriptorRequest =>
    have h2 : some (cmdSimpleDescReq 1 seq (bufGet payload 3)) = some cmd := hcmd
    obtain rfl := Option.some.inj h2
    rfl
  | ieeeAddressRequest =>
    have h2 : some (cmdIeeeAddrReq 1 seq) = some cmd := hcmd
    obtain rfl := Option.some.inj h2
    rfl
  | lqiTableRequest =>
    have h2 : some (cmdMgmtLqiReq 1 (bufGet payload 0)) = some cmd := hcmd
    obtain rfl := Option.some.inj h2
    rfl
  | bindRequest =>
    have hcmd2 : zdoSwitch .bindRequest 1 payload seq = some cmd := hcmd
    simp only [zdoSwitch] at hcmd2
    cases h10 : readUInt16LE payload 10 with
    | none =>
      simp only [h10] at hcmd2
      exact absurd hcmd2 (by simp)
    | some cl =>
      simp only [h10] at hcmd2
      by_cases h3 : bufGet payload 12 = some 3
      · rw [if_pos h3] at hcmd2
        obtain rfl := Option.some.inj hcmd2
        rfl
      · rw [if_neg h3] at hcmd2
        by_cases h1 : bufGet payload 12 = some 1
        · rw [if_pos h1] at hcmd2
          cases h13 : readUInt16LE payload 13 with
          | none =>
            rw [h13] at hcmd2
            exact absurd hcmd2 (by simp)
          | some g =>
            rw [h13] at hcmd2
            obtain rfl := Option.some.inj hcmd2
            rfl
        · rw [if_neg h1] at hcmd2
          obtain rfl := Option.some.inj hcmd2
          exact absurd rfl hne
  | unbindRequest =>
    have hcmd2 : zdoSwitch .unbindRequest 1 payload seq = some cmd := hcmd
    simp only [zdoSwitch] at hcmd2
    cases h10 : readUInt16LE payload 10 with
    | none =>
      simp only [h10] at hcmd2
      exact absurd hcmd2 (by simp)
    | some cl =>
      simp only [h10] at hcmd2
      by_cases h3 : bufGet payload 12 = some 3
      · rw [if_pos h3] at hcmd2
        obtain rfl := Option.some.inj hcmd2
        rfl
      · rw [if_neg h3] at hcmd2
        by_cases h1 : bufGet payload 12 = some 1
        · rw [if_pos h1] at hcmd2
          cases h13 : readUInt16LE payload 13 with
          | none =>
            rw [h13] at hcmd2
            exact absurd hcmd2 (by simp)
          | some g =>
            rw [h13] at hcmd2
            obtain rfl := Option.some.inj hcmd2
            rfl
        · rw [if_neg h1] at hcmd2
          obtain rfl := Option.some.inj hcmd2
          exact absurd rfl hne
  | leaveRequest =>
    have h2 : some (cmdMgmtLeaveReq 1 (ieeeOfBytes payload 1 9)
        (flagSet (bufGet payload 9) 128) (flagSet (bufGet payload 9) 64)) = some cmd := hcmd
    obtain rfl := Option.some.inj h2
    rfl
  | other =>
    simp [supportedZdo] at hc

/-- C10 witness: coordinator-addressed IeeeAddrReq construction equals
the address-1 construction and the built line carries S=0x0001.0. -/
theorem zdo_zero_address_rewritten_w :
    buildZdoCmd .ieeeAddressRequest 0 [] 7 = buildZdoCmd .ieeeAddressRequest 1 [] 7 ∧
    containsSub ("S=0x0001.0".toList) ("[Zdp,IeeeAddrReq,S=0x0001.0,7]".toList) = true := by
  have h := zdo_zero_address_rewritten .ieeeAddressRequest [] 7 (by decide)
  exact ⟨h.1, h.2 ("[Zdp,IeeeAddrReq,S=0x0001.0,7]".toList) (by decide) (by decide)⟩

end HB

